import Mathlib

/-!
Verification development for the `util` package of `tencent-doc-sdk`
(`src/util/http.go`): a set of HTTP helper functions that build a request,
execute it through a caller-supplied (or, for `HTTPGet`, a freshly created)
client, check that the status code is exactly 200, and decode the JSON
response body into a caller-provided destination.

The Go code is shallowly embedded: requests, responses and outcomes are
plain Lean structures, the HTTP client is a function from requests to
either a transport error or a response, and the Go standard-library
behaviour the helpers rely on (`net/url.Parse`, `url.Values.Encode`,
`encoding/json` decoding and marshalling, canonical MIME header keys)
is modelled by executable Lean functions defined below.
-/

set_option autoImplicit false

namespace Util

/-! ## JSON values

Model of the data produced by `encoding/json` when decoding. Numbers are
modelled as integers, which is sufficient for every property below. -/

inductive Json where
  | jnull
  | jbool (b : Bool)
  | jnum (n : Int)
  | jstr (s : String)
  | jarr (elems : List Json)
  | jobj (fields : List (String × Json))

def Json.isNull : Json → Bool
  | .jnull => true
  | _ => false

/-! ## JSON parsing

Model of the scanner underlying both `json.Unmarshal` and
`json.NewDecoder(r).Decode`: parse one JSON value from the front of the
input and return it together with the unconsumed remainder. Recursion is
by explicit fuel; `jsonFuel` below always supplies enough. -/

def isJsonWs (c : Char) : Bool :=
  c = ' ' || c = '\t' || c = '\n' || c = '\r'

def skipWs : List Char → List Char
  | [] => []
  | c :: cs => if isJsonWs c then skipWs cs else c :: cs

/-- Parse the contents of a JSON string after the opening quote, up to and
including the closing quote; supports the common escape sequences. -/
def parseStringChars : List Char → Option (List Char × List Char)
  | [] => none
  | c :: cs =>
    if c = '"' then some ([], cs)
    else if c = '\\' then
      match cs with
      | [] => none
      | e :: cs2 =>
        let dec : Option Char :=
          if e = '"' then some '"'
          else if e = '\\' then some '\\'
          else if e = '/' then some '/'
          else if e = 'n' then some '\n'
          else if e = 't' then some '\t'
          else if e = 'r' then some '\r'
          else none
        match dec with
        | none => none
        | some d =>
          match parseStringChars cs2 with
          | none => none
          | some (out, rest) => some (d :: out, rest)
    else
      match parseStringChars cs with
      | none => none
      | some (out, rest) => some (c :: out, rest)

def parseDigitsAux (acc : Nat) : List Char → Nat × List Char
  | [] => (acc, [])
  | c :: cs =>
    if c.isDigit then parseDigitsAux (acc * 10 + (c.toNat - 48)) cs
    else (acc, c :: cs)

/-- Parse a JSON number literal (modelled as an integer). -/
def parseIntLit : List Char → Option (Int × List Char)
  | [] => none
  | c :: cs =>
    if c = '-' then
      match cs with
      | [] => none
      | d :: _ =>
        if d.isDigit then
          let p := parseDigitsAux 0 cs
          some (-(p.1 : Int), p.2)
        else none
    else if c.isDigit then
      let p := parseDigitsAux 0 (c :: cs)
      some ((p.1 : Int), p.2)
    else none

mutual

/-- Parse one JSON value from the front of the input. -/
def parseValue : Nat → List Char → Option (Json × List Char)
  | 0, _ => none
  | Nat.succ fuel, cs =>
    match skipWs cs with
    | 'n' :: 'u' :: 'l' :: 'l' :: rest => some (.jnull, rest)
    | 't' :: 'r' :: 'u' :: 'e' :: rest => some (.jbool true, rest)
    | 'f' :: 'a' :: 'l' :: 's' :: 'e' :: rest => some (.jbool false, rest)
    | '"' :: rest =>
      match parseStringChars rest with
      | some (out, rest2) => some (.jstr (String.mk out), rest2)
      | none => none
    | '[' :: rest =>
      match skipWs rest with
      | ']' :: rest2 => some (.jarr [], rest2)
      | rest2 => parseElems fuel [] rest2
    | '\x7b' :: rest =>
      match skipWs rest with
      | '\x7d' :: rest2 => some (.jobj [], rest2)
      | rest2 => parseFields fuel [] rest2
    | cs2 =>
      match parseIntLit cs2 with
      | some (n, rest) => some (.jnum n, rest)
      | none => none

/-- Parse the elements of a JSON array after the opening bracket. -/
def parseElems : Nat → List Json → List Char → Option (Json × List Char)
  | 0, _, _ => none
  | Nat.succ fuel, acc, cs =>
    match parseValue fuel cs with
    | none => none
    | some (v, rest) =>
      match skipWs rest with
      | ']' :: rest2 => some (.jarr (acc ++ [v]), rest2)
      | ',' :: rest2 => parseElems fuel (acc ++ [v]) rest2
      | _ => none

/-- Parse the fields of a JSON object after the opening brace. -/
def parseFields : Nat → List (String × Json) → List Char → Option (Json × List Char)
  | 0, _, _ => none
  | Nat.succ fuel, acc, cs =>
    match skipWs cs with
    | '"' :: rest =>
      match parseStringChars rest with
      | none => none
      | some (key, rest2) =>
        match skipWs rest2 with
        | ':' :: rest3 =>
          match parseValue fuel rest3 with
          | none => none
          | some (v, rest4) =>
            match skipWs rest4 with
            | '\x7d' :: rest5 => some (.jobj (acc ++ [(String.mk key, v)]), rest5)
            | ',' :: rest5 => parseFields fuel (acc ++ [(String.mk key, v)]) rest5
            | _ => none
        | _ => none
    | _ => none

end

/-- Fuel that always suffices to parse a value from the front of `s`. -/
def jsonFuel (s : String) : Nat :=
  s.length * 2 + 2

/-- Model of `json.NewDecoder(resp.Body).Decode`: the streaming decoder reads
exactly one JSON value from the front of the stream and succeeds regardless
of any bytes that follow it. -/
def decodeStream (s : String) : Option Json :=
  match parseValue (jsonFuel s) s.data with
  | some (v, _) => some v
  | none => none

/-- Model of `json.Unmarshal`: the whole input must be one JSON value,
possibly surrounded by whitespace; trailing non-whitespace bytes are an
error. -/
def unmarshal (s : String) : Option Json :=
  match parseValue (jsonFuel s) s.data with
  | some (v, rest) => if skipWs rest = [] then some v else none
  | none => none

/-! ## JSON encoding and `json.Marshal`

Model of `json.Marshal` as used by `PostJSONWithAuth`. A Go value is either
JSON-representable or one of the kinds `encoding/json` cannot marshal
(channels, functions, complex numbers, cyclic values); marshalling fails
exactly on the latter. -/

def escapeJsonChar (c : Char) : List Char :=
  if c = '"' then ['\\', '"']
  else if c = '\\' then ['\\', '\\']
  else if c = '\n' then ['\\', 'n']
  else if c = '\t' then ['\\', 't']
  else if c = '\r' then ['\\', 'r']
  else [c]

mutual

def encodeJson : Json → String
  | .jnull => "null"
  | .jbool true => "true"
  | .jbool false => "false"
  | .jnum n => toString n
  | .jstr s => String.mk ('"' :: (s.data.map escapeJsonChar).flatten ++ ['"'])
  | .jarr xs => "[" ++ encodeElems xs ++ "]"
  | .jobj fs => "\x7b" ++ encodeFields fs ++ "\x7d"

def encodeElems : List Json → String
  | [] => ""
  | [x] => encodeJson x
  | x :: xs => encodeJson x ++ "," ++ encodeElems xs

def encodeFields : List (String × Json) → String
  | [] => ""
  | [(k, v)] => encodeJson (.jstr k) ++ ":" ++ encodeJson v
  | (k, v) :: fs => encodeJson (.jstr k) ++ ":" ++ encodeJson v ++ "," ++ encodeFields fs

end

/-- Model of a Go `interface` value passed as the JSON request body:
either JSON-representable data or a value `encoding/json` rejects. -/
inductive GoVal where
  | jsonVal (j : Json)
  | unsupported (typeName : String)

/-- Model of `json.Marshal`. -/
def jsonMarshal : GoVal → Except String String
  | .jsonVal j => .ok (encodeJson j)
  | .unsupported t => .error ("json: unsupported type: " ++ t)

/-! ## URL parsing and query encoding

Model of `net/url`. `urlParse` keeps the two pieces of a URL the helpers
touch, the part before the query string and the raw query string, and
fails on ASCII control characters, the `url.Parse` failure mode relevant
to these helpers. -/

def isCtl (c : Char) : Bool :=
  c.toNat < 32 || c.toNat = 127

def splitAtQuestion : List Char → List Char × List Char
  | [] => ([], [])
  | c :: cs =>
    if c = '?' then ([], cs)
    else
      let p := splitAtQuestion cs
      (c :: p.1, p.2)

structure GoURL where
  beforeQuery : String
  rawQuery : String
deriving DecidableEq

/-- Model of `net/url.Parse` restricted to what the helpers use. -/
def urlParse (s : String) : Except String GoURL :=
  if s.data.any isCtl then .error "net/url: invalid control character in URL"
  else
    let p := splitAtQuestion s.data
    .ok ⟨String.mk p.1, String.mk p.2⟩

/-- Model of `url.URL.String`: reattach the raw query when it is nonempty. -/
def GoURL.urlString (u : GoURL) : String :=
  if u.rawQuery = "" then u.beforeQuery else u.beforeQuery ++ "?" ++ u.rawQuery

/-- Form and query parameters, Go's `url.Values` (a map from keys to lists
of values, here an association list with distinct keys). -/
abbrev Values := List (String × List String)

def hexDigitChar (n : Nat) : Char :=
  if n < 10 then Char.ofNat (48 + n) else Char.ofNat (55 + n)

def utf8Bytes (c : Char) : List Nat :=
  let n := c.toNat
  if n < 128 then [n]
  else if n < 2048 then [192 + n / 64, 128 + n % 64]
  else if n < 65536 then [224 + n / 4096, 128 + (n / 64) % 64, 128 + n % 64]
  else [240 + n / 262144, 128 + (n / 4096) % 64, 128 + (n / 64) % 64, 128 + n % 64]

def percentByte (b : Nat) : List Char :=
  ['%', hexDigitChar (b / 16), hexDigitChar (b % 16)]

def isUnreservedQueryChar (c : Char) : Bool :=
  c.isAlphanum || c = '-' || c = '_' || c = '.' || c = '~'

/-- Model of `url.QueryEscape`: unreserved characters pass through, space
becomes `+`, every other byte becomes `%XX` with uppercase hex. -/
def queryEscape (s : String) : String :=
  String.mk ((s.data.map (fun c =>
    if isUnreservedQueryChar c then [c]
    else if c = ' ' then ['+']
    else ((utf8Bytes c).map percentByte).flatten)).flatten)

def sortValues (q : Values) : Values :=
  List.insertionSort (fun a b => a.1 ≤ b.1) q

/-- Model of `url.Values.Encode`: keys in sorted order, each value
percent-encoded as `k=v`, pairs joined with `&`. -/
def encodeValues (q : Values) : String :=
  String.intercalate "&"
    (((sortValues q).map (fun kv => kv.2.map (fun v => queryEscape kv.1 ++ "=" ++ queryEscape v))).flatten)

/-! ## Headers and requests

Model of `net/http` request construction. `Header.Set` canonicalises the
key (`textproto.CanonicalMIMEHeaderKey`) and replaces any existing value
for that key. -/

def canonicalizeChars (upper : Bool) : List Char → List Char
  | [] => []
  | c :: cs =>
    if c = '-' then c :: canonicalizeChars true cs
    else (if upper then c.toUpper else c.toLower) :: canonicalizeChars false cs

/-- Model of `textproto.CanonicalMIMEHeaderKey`: uppercase the first letter
and every letter after a hyphen, lowercase the rest. -/
def canonicalKey (s : String) : String :=
  String.mk (canonicalizeChars true s.data)

def headerSet (hs : List (String × String)) (k v : String) : List (String × String) :=
  let ck := canonicalKey k
  if hs.any (fun p => p.1 == ck) then
    hs.map (fun p => if p.1 == ck then (ck, v) else p)
  else
    hs ++ [(ck, v)]

def headerGet (hs : List (String × String)) (k : String) : Option String :=
  (hs.find? (fun p => p.1 == canonicalKey k)).map (fun p => p.2)

/-- Outgoing HTTP request: method, target URL, header set, body text. -/
structure Request where
  method : String
  url : String
  headers : List (String × String)
  body : String
deriving DecidableEq

def Request.setHeader (r : Request) (k v : String) : Request :=
  ⟨r.method, r.url, headerSet r.headers k v, r.body⟩

/-- Apply a caller-supplied header map to a request, one `Header.Set` per
entry (overwrite semantics per key). -/
def applyHeaders (req : Request) (hs : List (String × String)) : Request :=
  hs.foldl (fun r kv => r.setHeader kv.1 kv.2) req

/-- Model of `http.NewRequestWithContext` for a raw URL string: parse the
URL (failing on control characters) and build the request. The methods the
helpers pass (`GET`, `POST`) are always valid. -/
def httpNewRequest (method url body : String) : Except String Request :=
  match urlParse url with
  | .error e => .error e
  | .ok u => .ok ⟨method, u.urlString, [], body⟩

/-! ## Responses, destinations and outcomes -/

/-- Incoming HTTP response: status code and the full body text (the model
reads the body eagerly, so `io.ReadAll` always succeeds). -/
structure Response where
  statusCode : Nat
  body : String
deriving DecidableEq

/-- An HTTP client is the behaviour of `client.Do`: either a transport
error or a response. -/
abbrev Client := Request → Except String Response

/-- Shape of the caller-provided destination the JSON body is decoded
into: a Go `interface` destination accepts any value, a typed destination
accepts only the matching kind of value. -/
inductive Shape where
  | sAny
  | sBool
  | sNum
  | sStr
  | sArr
  | sObj
deriving DecidableEq

/-- Go's decoder reports an `UnmarshalTypeError` when the value does not
fit the destination; JSON `null` is accepted by every destination (it is
a no-op for typed destinations). -/
def matchesShape : Shape → Json → Bool
  | .sAny, _ => true
  | _, .jnull => true
  | .sBool, .jbool _ => true
  | .sNum, .jnum _ => true
  | .sStr, .jstr _ => true
  | .sArr, .jarr _ => true
  | .sObj, .jobj _ => true
  | _, _ => false

/-- Caller-provided mutable destination: its shape and its current
contents (`none` until something has been decoded into it). -/
structure Dest where
  shape : Shape
  val : Option Json

/-- Writing a decoded value into the destination; decoding JSON `null`
into a typed destination leaves it unchanged, as Go's decoder does. -/
def Dest.assign (d : Dest) (v : Json) : Dest :=
  if v.isNull ∧ d.shape ≠ .sAny then d else ⟨d.shape, some v⟩

/-- Error kinds of the helpers, one per `fmt.Errorf` site: invalid
endpoint, request construction failure, transport failure, non-200 status
(optionally carrying the response body text), response decode failure and
request-body marshal failure. -/
inductive HErr where
  | invalidEndpoint
  | createRequestFailed
  | transport (msg : String)
  | unexpectedStatus (code : Nat) (bodyText : Option String)
  | decodeFailed
  | marshalFailed
deriving DecidableEq

/-- Observable effects of one call: how many times the client was invoked,
whether the response body was closed, and the request handed to the
client, when one was. -/
structure Trace where
  clientCalls : Nat
  bodyClosed : Bool
  sentRequest : Option Request
deriving DecidableEq

def Trace.noCall : Trace := ⟨0, false, none⟩

/-- Result of one helper call: the returned error (`none` on success), the
destination after the call, and the observable effects. -/
structure Outcome where
  err : Option HErr
  dest : Dest
  trace : Trace

/-! ## The helpers of `src/util/http.go` -/

/-- Embedding of `newRequest`: parse the endpoint, overwrite its raw query
when query parameters are given, encode the form body and set its
content type when a form is given, and set the bearer token header when
the token is nonempty. -/
def newRequest (method endpoint : String) (query : Option Values)
    (form : Option Values) (token : String) : Except HErr Request :=
  match urlParse endpoint with
  | .error _ => .error .invalidEndpoint
  | .ok u0 =>
    let u : GoURL :=
      match query with
      | some q => ⟨u0.beforeQuery, encodeValues q⟩
      | none => u0
    let bodyCt : String × String :=
      match form with
      | some f => (encodeValues f, "application/x-www-form-urlencoded")
      | none => ("", "")
    let req0 : Request := ⟨method, u.urlString, [], bodyCt.1⟩
    let req1 := if bodyCt.2 ≠ "" then req0.setHeader "Content-Type" bodyCt.2 else req0
    let req2 := if token ≠ "" then req1.setHeader "Authorization" ("Bearer " ++ token) else req1
    .ok req2

/-- Embedding of `doRequest`: execute the request, require status exactly
200, stream-decode the JSON body into the destination. The `defer
resp.Body.Close()` of the source shows up as `bodyClosed := true` on every
path reached after a response is obtained. -/
def doRequest (client : Client) (req : Request) (d : Dest) : Outcome :=
  match client req with
  | .error msg => ⟨some (.transport msg), d, ⟨1, false, some req⟩⟩
  | .ok resp =>
    if resp.statusCode ≠ 200 then
      ⟨some (.unexpectedStatus resp.statusCode none), d, ⟨1, true, some req⟩⟩
    else
      match decodeStream resp.body with
      | none => ⟨some .decodeFailed, d, ⟨1, true, some req⟩⟩
      | some v =>
        if matchesShape d.shape v then ⟨none, d.assign v, ⟨1, true, some req⟩⟩
        else ⟨some .decodeFailed, d, ⟨1, true, some req⟩⟩

/-- Embedding of `PostForm`. -/
def PostForm (client : Client) (endpoint : String) (form : Option Values)
    (d : Dest) : Outcome :=
  match newRequest "POST" endpoint none form "" with
  | .error e => ⟨some e, d, Trace.noCall⟩
  | .ok req => doRequest client req d

/-- Shared embedding of the execute-and-decode block that
`GetWithCustomHeaders`, `PostFormWithHeaders` and `PostJSONWithAuth` each
repeat verbatim in the source: execute the request, close the body
(`defer`), on a non-200 status read the whole body and fail with the
status code and the body text, otherwise stream-decode the JSON body into
the destination. -/
def execUtilRequest (client : Client) (req : Request) (d : Dest) : Outcome :=
  match client req with
  | .error msg => ⟨some (.transport msg), d, ⟨1, false, some req⟩⟩
  | .ok resp =>
    if resp.statusCode ≠ 200 then
      ⟨some (.unexpectedStatus resp.statusCode (some resp.body)), d, ⟨1, true, some req⟩⟩
    else
      match decodeStream resp.body with
      | none => ⟨some .decodeFailed, d, ⟨1, true, some req⟩⟩
      | some v =>
        if matchesShape d.shape v then ⟨none, d.assign v, ⟨1, true, some req⟩⟩
        else ⟨some .decodeFailed, d, ⟨1, true, some req⟩⟩

/-- Embedding of `GetWithCustomHeaders`: build a bare GET request, apply
the caller's headers with overwrite semantics, then execute and decode. -/
def GetWithCustomHeaders (client : Client) (url : String)
    (headers : List (String × String)) (d : Dest) : Outcome :=
  match httpNewRequest "GET" url "" with
  | .error _ => ⟨some .createRequestFailed, d, Trace.noCall⟩
  | .ok req0 => execUtilRequest client (applyHeaders req0 headers) d

/-- Embedding of `PostFormWithHeaders`: the encoded form is the request
body, but no `Content-Type` header is set automatically; only the
caller's headers are applied. -/
def PostFormWithHeaders (client : Client) (url : String) (form : Values)
    (headers : List (String × String)) (d : Dest) : Outcome :=
  match httpNewRequest "POST" url (encodeValues form) with
  | .error _ => ⟨some .createRequestFailed, d, Trace.noCall⟩
  | .ok req0 => execUtilRequest client (applyHeaders req0 headers) d

/-- Embedding of `PostJSONWithAuth`: marshal the body first (failing
before any request is built or sent), then build the request, set
`Content-Type: application/json` and `Authorization: Bearer` plus the
token unconditionally, then execute and decode. -/
def PostJSONWithAuth (client : Client) (endpoint : String) (body : GoVal)
    (token : String) (d : Dest) : Outcome :=
  match jsonMarshal body with
  | .error _ => ⟨some .marshalFailed, d, Trace.noCall⟩
  | .ok jsonBody =>
    match httpNewRequest "POST" endpoint jsonBody with
    | .error _ => ⟨some .createRequestFailed, d, Trace.noCall⟩
    | .ok req0 =>
      execUtilRequest client
        ((req0.setHeader "Content-Type" "application/json").setHeader
          "Authorization" ("Bearer " ++ token)) d

/-- Embedding of `HTTPGet`: `net` is the behaviour of the fresh default
client the function constructs for itself. The whole body is read first
(`io.ReadAll`), a non-200 error includes the body text, and decoding uses
`json.Unmarshal` on the whole body rather than the streaming decoder. -/
def HTTPGet (net : Client) (url : String) (d : Dest) : Outcome :=
  match httpNewRequest "GET" url "" with
  | .error _ => ⟨some .createRequestFailed, d, Trace.noCall⟩
  | .ok req =>
    match net req with
    | .error msg => ⟨some (.transport msg), d, ⟨1, false, some req⟩⟩
    | .ok resp =>
      if resp.statusCode ≠ 200 then
        ⟨some (.unexpectedStatus resp.statusCode (some resp.body)), d, ⟨1, true, some req⟩⟩
      else
        match unmarshal resp.body with
        | none => ⟨some .decodeFailed, d, ⟨1, true, some req⟩⟩
        | some v =>
          if matchesShape d.shape v then ⟨none, d.assign v, ⟨1, true, some req⟩⟩
          else ⟨some .decodeFailed, d, ⟨1, true, some req⟩⟩

/-! ## Helper lemmas -/

theorem execUtilRequest_transport (client : Client) (req : Request) (d : Dest)
    (msg : String) (hc : client req = .error msg) :
    execUtilRequest client req d = ⟨some (.transport msg), d, ⟨1, false, some req⟩⟩ := by
  simp only [execUtilRequest, hc]

theorem execUtilRequest_non200 (client : Client) (req : Request) (d : Dest)
    (resp : Response) (hc : client req = .ok resp) (hs : resp.statusCode ≠ 200) :
    execUtilRequest client req d =
      ⟨some (.unexpectedStatus resp.statusCode (some resp.body)), d, ⟨1, true, some req⟩⟩ := by
  simp only [execUtilRequest, hc]
  rw [if_pos hs]

theorem execUtilRequest_decode_fail (client : Client) (req : Request) (d : Dest)
    (resp : Response) (hc : client req = .ok resp)
    (hs : resp.statusCode = 200) (hd : decodeStream resp.body = none) :
    execUtilRequest client req d = ⟨some .decodeFailed, d, ⟨1, true, some req⟩⟩ := by
  have hs' : ¬resp.statusCode ≠ 200 := fun h => h hs
  simp only [execUtilRequest, hc]
  rw [if_neg hs']
  simp only [hd]

theorem execUtilRequest_decode_ok (client : Client) (req : Request) (d : Dest)
    (resp : Response) (v : Json) (hc : client req = .ok resp)
    (hs : resp.statusCode = 200) (hd : decodeStream resp.body = some v)
    (hm : matchesShape d.shape v = true) :
    execUtilRequest client req d = ⟨none, d.assign v, ⟨1, true, some req⟩⟩ := by
  have hs' : ¬resp.statusCode ≠ 200 := fun h => h hs
  simp only [execUtilRequest, hc]
  rw [if_neg hs']
  simp only [hd]
  rw [if_pos hm]

theorem execUtilRequest_mismatch (client : Client) (req : Request) (d : Dest)
    (resp : Response) (v : Json) (hc : client req = .ok resp)
    (hs : resp.statusCode = 200) (hd : decodeStream resp.body = some v)
    (hm : matchesShape d.shape v = false) :
    execUtilRequest client req d = ⟨some .decodeFailed, d, ⟨1, true, some req⟩⟩ := by
  have hs' : ¬resp.statusCode ≠ 200 := fun h => h hs
  have hm' : ¬matchesShape d.shape v = true := by simp [hm]
  simp only [execUtilRequest, hc]
  rw [if_neg hs']
  simp only [hd]
  rw [if_neg hm']

theorem execUtilRequest_sentRequest (client : Client) (req : Request) (d : Dest) :
    (execUtilRequest client req d).trace.sentRequest = some req := by
  cases hc : client req with
  | error msg => rw [execUtilRequest_transport client req d msg hc]
  | ok resp =>
    by_cases hs : resp.statusCode ≠ 200
    · rw [execUtilRequest_non200 client req d resp hc hs]
    · push_neg at hs
      cases hd : decodeStream resp.body with
      | none => rw [execUtilRequest_decode_fail client req d resp hc hs hd]
      | some v =>
        cases hm : matchesShape d.shape v with
        | true => rw [execUtilRequest_decode_ok client req d resp v hc hs hd hm]
        | false => rw [execUtilRequest_mismatch client req d resp v hc hs hd hm]

theorem execUtilRequest_bodyClosed (client : Client) (req : Request) (d : Dest)
    (resp : Response) (hc : client req = .ok resp) :
    (execUtilRequest client req d).trace.bodyClosed = true := by
  by_cases hs : resp.statusCode ≠ 200
  · rw [execUtilRequest_non200 client req d resp hc hs]
  · push_neg at hs
    cases hd : decodeStream resp.body with
    | none => rw [execUtilRequest_decode_fail client req d resp hc hs hd]
    | some v =>
      cases hm : matchesShape d.shape v with
      | true => rw [execUtilRequest_decode_ok client req d resp v hc hs hd hm]
      | false => rw [execUtilRequest_mismatch client req d resp v hc hs hd hm]

theorem doRequest_transport (client : Client) (req : Request) (d : Dest)
    (msg : String) (hc : client req = .error msg) :
    doRequest client req d = ⟨some (.transport msg), d, ⟨1, false, some req⟩⟩ := by
  simp only [doRequest, hc]

theorem doRequest_non200 (client : Client) (req : Request) (d : Dest)
    (resp : Response) (hc : client req = .ok resp) (hs : resp.statusCode ≠ 200) :
    doRequest client req d =
      ⟨some (.unexpectedStatus resp.statusCode none), d, ⟨1, true, some req⟩⟩ := by
  simp only [doRequest, hc]
  rw [if_pos hs]

theorem doRequest_decode_fail (client : Client) (req : Request) (d : Dest)
    (resp : Response) (hc : client req = .ok resp)
    (hs : resp.statusCode = 200) (hd : decodeStream resp.body = none) :
    doRequest client req d = ⟨some .decodeFailed, d, ⟨1, true, some req⟩⟩ := by
  have hs' : ¬resp.statusCode ≠ 200 := fun h => h hs
  simp only [doRequest, hc]
  rw [if_neg hs']
  simp only [hd]

theorem doRequest_decode_ok (client : Client) (req : Request) (d : Dest)
    (resp : Response) (v : Json) (hc : client req = .ok resp)
    (hs : resp.statusCode = 200) (hd : decodeStream resp.body = some v)
    (hm : matchesShape d.shape v = true) :
    doRequest client req d = ⟨none, d.assign v, ⟨1, true, some req⟩⟩ := by
  have hs' : ¬resp.statusCode ≠ 200 := fun h => h hs
  simp only [doRequest, hc]
  rw [if_neg hs']
  simp only [hd]
  rw [if_pos hm]

theorem doRequest_mismatch (client : Client) (req : Request) (d : Dest)
    (resp : Response) (v : Json) (hc : client req = .ok resp)
    (hs : resp.statusCode = 200) (hd : decodeStream resp.body = some v)
    (hm : matchesShape d.shape v = false) :
    doRequest client req d = ⟨some .decodeFailed, d, ⟨1, true, some req⟩⟩ := by
  have hs' : ¬resp.statusCode ≠ 200 := fun h => h hs
  have hm' : ¬matchesShape d.shape v = true := by simp [hm]
  simp only [doRequest, hc]
  rw [if_neg hs']
  simp only [hd]
  rw [if_neg hm']

theorem doRequest_bodyClosed (client : Client) (req : Request) (d : Dest)
    (resp : Response) (hc : client req = .ok resp) :
    (doRequest client req d).trace.bodyClosed = true := by
  by_cases hs : resp.statusCode ≠ 200
  · rw [doRequest_non200 client req d resp hc hs]
  · push_neg at hs
    cases hd : decodeStream resp.body with
    | none => rw [doRequest_decode_fail client req d resp hc hs hd]
    | some v =>
      cases hm : matchesShape d.shape v with
      | true => rw [doRequest_decode_ok client req d resp v hc hs hd hm]
      | false => rw [doRequest_mismatch client req d resp v hc hs hd hm]

theorem HTTPGet_transport (net : Client) (url : String) (u : GoURL) (d : Dest)
    (msg : String) (hu : urlParse url = .ok u)
    (hc : net ⟨"GET", u.urlString, [], ""⟩ = .error msg) :
    HTTPGet net url d =
      ⟨some (.transport msg), d, ⟨1, false, some ⟨"GET", u.urlString, [], ""⟩⟩⟩ := by
  simp only [HTTPGet, httpNewRequest, hu, hc]

theorem HTTPGet_non200 (net : Client) (url : String) (u : GoURL) (d : Dest)
    (resp : Response) (hu : urlParse url = .ok u)
    (hc : net ⟨"GET", u.urlString, [], ""⟩ = .ok resp) (hs : resp.statusCode ≠ 200) :
    HTTPGet net url d = ⟨some (.unexpectedStatus resp.statusCode (some resp.body)), d,
      ⟨1, true, some ⟨"GET", u.urlString, [], ""⟩⟩⟩ := by
  simp only [HTTPGet, httpNewRequest, hu, hc]
  rw [if_pos hs]

theorem HTTPGet_decode_fail (net : Client) (url : String) (u : GoURL) (d : Dest)
    (resp : Response) (hu : urlParse url = .ok u)
    (hc : net ⟨"GET", u.urlString, [], ""⟩ = .ok resp)
    (hs : resp.statusCode = 200) (hd : unmarshal resp.body = none) :
    HTTPGet net url d =
      ⟨some .decodeFailed, d, ⟨1, true, some ⟨"GET", u.urlString, [], ""⟩⟩⟩ := by
  have hs' : ¬resp.statusCode ≠ 200 := fun h => h hs
  simp only [HTTPGet, httpNewRequest, hu, hc]
  rw [if_neg hs']
  simp only [hd]

theorem HTTPGet_decode_ok (net : Client) (url : String) (u : GoURL) (d : Dest)
    (resp : Response) (v : Json) (hu : urlParse url = .ok u)
    (hc : net ⟨"GET", u.urlString, [], ""⟩ = .ok resp)
    (hs : resp.statusCode = 200) (hd : unmarshal resp.body = some v)
    (hm : matchesShape d.shape v = true) :
    HTTPGet net url d =
      ⟨none, d.assign v, ⟨1, true, some ⟨"GET", u.urlString, [], ""⟩⟩⟩ := by
  have hs' : ¬resp.statusCode ≠ 200 := fun h => h hs
  simp only [HTTPGet, httpNewRequest, hu, hc]
  rw [if_neg hs']
  simp only [hd]
  rw [if_pos hm]

theorem HTTPGet_mismatch (net : Client) (url : String) (u : GoURL) (d : Dest)
    (resp : Response) (v : Json) (hu : urlParse url = .ok u)
    (hc : net ⟨"GET", u.urlString, [], ""⟩ = .ok resp)
    (hs : resp.statusCode = 200) (hd : unmarshal resp.body = some v)
    (hm : matchesShape d.shape v = false) :
    HTTPGet net url d =
      ⟨some .decodeFailed, d, ⟨1, true, some ⟨"GET", u.urlString, [], ""⟩⟩⟩ := by
  have hs' : ¬resp.statusCode ≠ 200 := fun h => h hs
  have hm' : ¬matchesShape d.shape v = true := by simp [hm]
  simp only [HTTPGet, httpNewRequest, hu, hc]
  rw [if_neg hs']
  simp only [hd]
  rw [if_neg hm']

theorem HTTPGet_bodyClosed (net : Client) (url : String) (u : GoURL) (d : Dest)
    (resp : Response) (hu : urlParse url = .ok u)
    (hc : net ⟨"GET", u.urlString, [], ""⟩ = .ok resp) :
    (HTTPGet net url d).trace.bodyClosed = true := by
  by_cases hs : resp.statusCode ≠ 200
  · rw [HTTPGet_non200 net url u d resp hu hc hs]
  · push_neg at hs
    cases hd : unmarshal resp.body with
    | none => rw [HTTPGet_decode_fail net url u d resp hu hc hs hd]
    | some v =>
      cases hm : matchesShape d.shape v with
      | true => rw [HTTPGet_decode_ok net url u d resp v hu hc hs hd hm]
      | false => rw [HTTPGet_mismatch net url u d resp v hu hc hs hd hm]

theorem newRequest_invalid (method endpoint : String) (query form : Option Values)
    (token msg : String) (h : urlParse endpoint = .error msg) :
    newRequest method endpoint query form token = .error .invalidEndpoint := by
  simp only [newRequest, h]

theorem PostForm_request (client : Client) (endpoint : String) (form : Option Values)
    (d : Dest) (req : Request) (h : newRequest "POST" endpoint none form "" = .ok req) :
    PostForm client endpoint form d = doRequest client req d := by
  simp only [PostForm, h]

theorem GetWithCustomHeaders_request (client : Client) (url : String)
    (headers : List (String × String)) (d : Dest) (u : GoURL)
    (hu : urlParse url = .ok u) :
    GetWithCustomHeaders client url headers d =
      execUtilRequest client (applyHeaders ⟨"GET", u.urlString, [], ""⟩ headers) d := by
  simp only [GetWithCustomHeaders, httpNewRequest, hu]

theorem PostFormWithHeaders_request (client : Client) (url : String) (form : Values)
    (headers : List (String × String)) (d : Dest) (u : GoURL)
    (hu : urlParse url = .ok u) :
    PostFormWithHeaders client url form headers d =
      execUtilRequest client
        (applyHeaders ⟨"POST", u.urlString, [], encodeValues form⟩ headers) d := by
  simp only [PostFormWithHeaders, httpNewRequest, hu]

theorem PostJSONWithAuth_request (client : Client) (endpoint : String) (gbody : GoVal)
    (token : String) (d : Dest) (jb : String) (u : GoURL)
    (hm : jsonMarshal gbody = .ok jb) (hu : urlParse endpoint = .ok u) :
    PostJSONWithAuth client endpoint gbody token d =
      execUtilRequest client
        ((Request.setHeader ⟨"POST", u.urlString, [], jb⟩
            "Content-Type" "application/json").setHeader
          "Authorization" ("Bearer " ++ token)) d := by
  simp only [PostJSONWithAuth, hm, httpNewRequest, hu]

theorem headerGet_headerSet_self (hs : List (String × String)) (k v : String) :
    headerGet (headerSet hs k v) k = some v := by
  unfold headerGet headerSet
  by_cases hA : hs.any (fun p => p.1 == canonicalKey k)
  · rw [if_pos hA]
    induction hs with
    | nil => simp at hA
    | cons p t ih =>
      by_cases hp : p.1 == canonicalKey k
      · simp only [List.map_cons, if_pos hp]
        rw [List.find?_cons_of_pos]
        · rfl
        · exact beq_self_eq_true _
      · simp only [List.any_cons, hp, Bool.false_or] at hA
        simp only [List.map_cons, if_neg hp]
        rw [List.find?_cons_of_neg]
        · exact ih hA
        · simpa using hp
  · rw [if_neg hA]
    induction hs with
    | nil =>
      simp only [List.nil_append]
      rw [List.find?_cons_of_pos]
      · rfl
      · exact beq_self_eq_true _
    | cons p t ih =>
      simp only [List.any_cons, Bool.or_eq_true, not_or] at hA
      simp only [List.cons_append]
      rw [List.find?_cons_of_neg]
      · exact ih (by simpa using hA.2)
      · simpa using hA.1

theorem applyHeaders_append_last (req : Request) (hs : List (String × String))
    (k v : String) :
    headerGet (applyHeaders req (hs ++ [(k, v)])).headers k = some v := by
  unfold applyHeaders
  rw [List.foldl_append]
  simp only [List.foldl_cons, List.foldl_nil, Request.setHeader]
  exact headerGet_headerSet_self _ k v

theorem newRequest_postForm (endpoint : String) (u : GoURL) (form : Values)
    (hu : urlParse endpoint = .ok u) :
    newRequest "POST" endpoint none (some form) "" =
      .ok (Request.setHeader ⟨"POST", u.urlString, [], encodeValues form⟩
            "Content-Type" "application/x-www-form-urlencoded") := by
  simp [newRequest, hu]

theorem newRequest_noForm (method endpoint : String) (u : GoURL) (token : String)
    (hu : urlParse endpoint = .ok u) (ht : token ≠ "") :
    newRequest method endpoint none none token =
      .ok (Request.setHeader ⟨method, u.urlString, [], ""⟩
            "Authorization" ("Bearer " ++ token)) := by
  simp [newRequest, hu, ht]

theorem newRequest_url (method endpoint : String) (u : GoURL) (q : Values)
    (form : Option Values) (token : String) (req : Request)
    (hu : urlParse endpoint = .ok u)
    (h : newRequest method endpoint (some q) form token = .ok req) :
    req.url = GoURL.urlString ⟨u.beforeQuery, encodeValues q⟩ := by
  cases form with
  | none =>
    by_cases ht : token = "" <;>
      simp [newRequest, hu, ht, Request.setHeader] at h <;> subst h <;> rfl
  | some f =>
    by_cases ht : token = "" <;>
      simp [newRequest, hu, ht, Request.setHeader] at h <;> subst h <;> rfl

theorem newRequest_noToken_auth (method endpoint : String) (u : GoURL)
    (query form : Option Values) (req : Request)
    (hu : urlParse endpoint = .ok u)
    (h : newRequest method endpoint query form "" = .ok req) :
    headerGet req.headers "Authorization" = none := by
  cases form <;> cases query <;>
    simp [newRequest, hu, Request.setHeader] at h <;> subst h <;> rfl

theorem newRequest_ok (method endpoint : String) (query form : Option Values)
    (token : String) (u : GoURL) (hu : urlParse endpoint = .ok u) :
    ∃ req, newRequest method endpoint query form token = .ok req := by
  simp only [newRequest, hu]
  exact ⟨_, rfl⟩

theorem doRequest_sentRequest (client : Client) (req : Request) (d : Dest) :
    (doRequest client req d).trace.sentRequest = some req := by
  cases hc : client req with
  | error msg => rw [doRequest_transport client req d msg hc]
  | ok resp =>
    by_cases hs : resp.statusCode ≠ 200
    · rw [doRequest_non200 client req d resp hc hs]
    · push_neg at hs
      cases hd : decodeStream resp.body with
      | none => rw [doRequest_decode_fail client req d resp hc hs hd]
      | some v =>
        cases hm : matchesShape d.shape v with
        | true => rw [doRequest_decode_ok client req d resp v hc hs hd hm]
        | false => rw [doRequest_mismatch client req d resp v hc hs hd hm]

theorem unmarshal_some_decodeStream (s : String) (v : Json)
    (h : unmarshal s = some v) : decodeStream s = some v := by
  unfold unmarshal at h
  unfold decodeStream
  cases hp : parseValue (jsonFuel s) s.data with
  | none => rw [hp] at h; exact absurd h (by simp)
  | some p =>
    obtain ⟨v2, rest⟩ := p
    simp only [hp] at h ⊢
    by_cases hw : skipWs rest = []
    · rw [if_pos hw] at h
      exact h
    · rw [if_neg hw] at h
      exact absurd h (by simp)

/-! ## The claims

Each claim of the specification is settled by one theorem below, in claim
order. -/

/-- C5: whenever JSON marshalling of the request body fails,
`PostJSONWithAuth` returns the marshal error before any network activity:
for every client the outcome records zero client invocations and no
constructed request, and the destination is unmodified. -/
theorem c5_marshal_failure_no_network (client : Client)
    (endpoint : String) (body : GoVal) (token : String) (d : Dest) (msg : String)
    (h : jsonMarshal body = .error msg) :
    PostJSONWithAuth client endpoint body token d =
      ⟨some .marshalFailed, d, Trace.noCall⟩ := by
  simp only [PostJSONWithAuth, h]

/-- Witness for C5 at a concrete unmarshalable body. -/
theorem c5_marshal_failure_no_network_witness :
    jsonMarshal (.unsupported "chan int") = .error "json: unsupported type: chan int" ∧
    PostJSONWithAuth (fun _ => .ok ⟨200, "1"⟩) "http://e" (.unsupported "chan int")
        "tok" ⟨.sAny, none⟩ =
      ⟨some .marshalFailed, ⟨.sAny, none⟩, Trace.noCall⟩ :=
  ⟨rfl, c5_marshal_failure_no_network _ _ _ _ _ _ rfl⟩

/-- C6: for every endpoint string that URL parsing rejects, `PostForm`
returns the invalid-endpoint error without any network I/O: for every
client the outcome records zero client invocations and no sent request,
and the destination is unmodified. -/
theorem c6_invalid_endpoint_no_network (client : Client) (endpoint : String)
    (form : Option Values) (d : Dest) (msg : String)
    (h : urlParse endpoint = .error msg) :
    PostForm client endpoint form d = ⟨some .invalidEndpoint, d, Trace.noCall⟩ := by
  simp only [PostForm, newRequest_invalid "POST" endpoint none form "" msg h]

/-- Witness for C6 at a concrete endpoint containing a control character. -/
theorem c6_invalid_endpoint_no_network_witness :
    urlParse "http://e/\x01" = .error "net/url: invalid control character in URL" ∧
    PostForm (fun _ => .ok ⟨200, "1"⟩) "http://e/\x01" none ⟨.sAny, none⟩ =
      ⟨some .invalidEndpoint, ⟨.sAny, none⟩, Trace.noCall⟩ :=
  ⟨rfl, c6_invalid_endpoint_no_network _ _ _ _ _ rfl⟩

/-- C1: for every entry point and every response whose status code is not
200 (delivered by a mock client returning that response), the call returns
an unexpected-status error carrying exactly that code, the JSON body is
never decoded and the caller-provided destination is unmodified; status
exactly 200 is thus the only code accepted as success. -/
theorem c1_non200_unexpected_status (resp : Response) (hs : resp.statusCode ≠ 200)
    (endpoint rawUrl : String) (u1 u2 : GoURL)
    (form : Option Values) (form2 : Values) (headers : List (String × String))
    (gbody : GoVal) (jb token : String) (d : Dest)
    (hu1 : urlParse endpoint = .ok u1) (hu2 : urlParse rawUrl = .ok u2)
    (hj : jsonMarshal gbody = .ok jb) :
    ((PostForm (fun _ => .ok resp) endpoint form d).err =
        some (.unexpectedStatus resp.statusCode none) ∧
      (PostForm (fun _ => .ok resp) endpoint form d).dest = d) ∧
    ((GetWithCustomHeaders (fun _ => .ok resp) rawUrl headers d).err =
        some (.unexpectedStatus resp.statusCode (some resp.body)) ∧
      (GetWithCustomHeaders (fun _ => .ok resp) rawUrl headers d).dest = d) ∧
    ((PostFormWithHeaders (fun _ => .ok resp) rawUrl form2 headers d).err =
        some (.unexpectedStatus resp.statusCode (some resp.body)) ∧
      (PostFormWithHeaders (fun _ => .ok resp) rawUrl form2 headers d).dest = d) ∧
    ((PostJSONWithAuth (fun _ => .ok resp) endpoint gbody token d).err =
        some (.unexpectedStatus resp.statusCode (some resp.body)) ∧
      (PostJSONWithAuth (fun _ => .ok resp) endpoint gbody token d).dest = d) ∧
    ((HTTPGet (fun _ => .ok resp) rawUrl d).err =
        some (.unexpectedStatus resp.statusCode (some resp.body)) ∧
      (HTTPGet (fun _ => .ok resp) rawUrl d).dest = d) := by
  obtain ⟨req1, hreq1⟩ := newRequest_ok "POST" endpoint none form "" u1 hu1
  refine ⟨?_, ?_, ?_, ?_, ?_⟩
  · rw [PostForm_request _ _ _ _ req1 hreq1, doRequest_non200 _ req1 d resp rfl hs]
    exact ⟨rfl, rfl⟩
  · rw [GetWithCustomHeaders_request _ _ headers _ u2 hu2,
      execUtilRequest_non200 _ _ d resp rfl hs]
    exact ⟨rfl, rfl⟩
  · rw [PostFormWithHeaders_request _ _ form2 headers _ u2 hu2,
      execUtilRequest_non200 _ _ d resp rfl hs]
    exact ⟨rfl, rfl⟩
  · rw [PostJSONWithAuth_request _ _ _ token _ jb u1 hj hu1,
      execUtilRequest_non200 _ _ d resp rfl hs]
    exact ⟨rfl, rfl⟩
  · rw [HTTPGet_non200 _ rawUrl u2 d resp hu2 rfl hs]
    exact ⟨rfl, rfl⟩

/-- Witness for C1 at a concrete 503 response. -/
theorem c1_non200_unexpected_status_witness :
    (503 : Nat) ≠ 200 ∧
    urlParse "http://e/p" = .ok ⟨"http://e/p", ""⟩ ∧
    urlParse "http://e/q" = .ok ⟨"http://e/q", ""⟩ ∧
    jsonMarshal (.jsonVal .jnull) = .ok "null" ∧
    (PostForm (fun _ => .ok ⟨503, "overloaded"⟩) "http://e/p" none ⟨.sAny, none⟩).err =
      some (.unexpectedStatus 503 none) ∧
    (HTTPGet (fun _ => .ok ⟨503, "overloaded"⟩) "http://e/q" ⟨.sAny, none⟩).err =
      some (.unexpectedStatus 503 (some "overloaded")) := by
  have hj : jsonMarshal (.jsonVal .jnull) = .ok "null" := by
    simp [jsonMarshal, encodeJson]
  have h := c1_non200_unexpected_status ⟨503, "overloaded"⟩ (by decide)
    "http://e/p" "http://e/q" ⟨"http://e/p", ""⟩ ⟨"http://e/q", ""⟩ none [] []
    (.jsonVal .jnull) "null" "tok" ⟨.sAny, none⟩ rfl rfl hj
  exact ⟨by decide, rfl, rfl, hj, h.1.1, h.2.2.2.2.1⟩

/-- C8: for every entry point, once a response has been obtained from the
client the response body is closed before the call returns, on every exit
path — success, status-check failure and decode failure are all covered
because the response and destination are arbitrary. -/
theorem c8_body_closed_on_every_path
    (resp : Response) (endpoint rawUrl : String) (u1 u2 : GoURL)
    (form : Option Values) (form2 : Values) (headers : List (String × String))
    (gbody : GoVal) (jb token : String) (d : Dest)
    (hu1 : urlParse endpoint = .ok u1) (hu2 : urlParse rawUrl = .ok u2)
    (hj : jsonMarshal gbody = .ok jb) :
    (PostForm (fun _ => .ok resp) endpoint form d).trace.bodyClosed = true ∧
    (GetWithCustomHeaders (fun _ => .ok resp) rawUrl headers d).trace.bodyClosed = true ∧
    (PostFormWithHeaders (fun _ => .ok resp) rawUrl form2 headers d).trace.bodyClosed
      = true ∧
    (PostJSONWithAuth (fun _ => .ok resp) endpoint gbody token d).trace.bodyClosed
      = true ∧
    (HTTPGet (fun _ => .ok resp) rawUrl d).trace.bodyClosed = true := by
  obtain ⟨req1, hreq1⟩ := newRequest_ok "POST" endpoint none form "" u1 hu1
  refine ⟨?_, ?_, ?_, ?_, ?_⟩
  · rw [PostForm_request _ _ _ _ req1 hreq1]
    exact doRequest_bodyClosed _ req1 d resp rfl
  · rw [GetWithCustomHeaders_request _ _ headers _ u2 hu2]
    exact execUtilRequest_bodyClosed _ _ d resp rfl
  · rw [PostFormWithHeaders_request _ _ form2 headers _ u2 hu2]
    exact execUtilRequest_bodyClosed _ _ d resp rfl
  · rw [PostJSONWithAuth_request _ _ _ token _ jb u1 hj hu1]
    exact execUtilRequest_bodyClosed _ _ d resp rfl
  · exact HTTPGet_bodyClosed _ rawUrl u2 d resp hu2 rfl

/-- Witness for C8 at a concrete response exercising the decode-failure
exit path. -/
theorem c8_body_closed_on_every_path_witness :
    urlParse "http://e/p" = .ok ⟨"http://e/p", ""⟩ ∧
    urlParse "http://e/q" = .ok ⟨"http://e/q", ""⟩ ∧
    jsonMarshal (.jsonVal .jnull) = .ok "null" ∧
    (PostForm (fun _ => .ok ⟨200, "not json"⟩) "http://e/p" none
      ⟨.sAny, none⟩).trace.bodyClosed = true ∧
    (HTTPGet (fun _ => .ok ⟨200, "not json"⟩) "http://e/q"
      ⟨.sAny, none⟩).trace.bodyClosed = true := by
  have hj : jsonMarshal (.jsonVal .jnull) = .ok "null" := by
    simp [jsonMarshal, encodeJson]
  have h := c8_body_closed_on_every_path ⟨200, "not json"⟩
    "http://e/p" "http://e/q" ⟨"http://e/p", ""⟩ ⟨"http://e/q", ""⟩ none [] []
    (.jsonVal .jnull) "null" "tok" ⟨.sAny, none⟩ rfl rfl hj
  exact ⟨rfl, rfl, hj, h.1, h.2.2.2.2⟩

/-- C9: `PostJSONWithAuth` sets the Authorization header to the string
`Bearer` plus a space plus the token for every token, including the empty
one, whereas the shared request builder omits the Authorization header
entirely when the token is empty. -/
theorem c9_bearer_always_vs_builder_omits
    (client : Client) (endpoint : String) (u : GoURL) (gbody : GoVal)
    (jb token : String) (d : Dest)
    (method endpoint2 : String) (u2 : GoURL) (query form : Option Values)
    (req : Request)
    (hj : jsonMarshal gbody = .ok jb) (hu : urlParse endpoint = .ok u)
    (hu2 : urlParse endpoint2 = .ok u2)
    (hreq : newRequest method endpoint2 query form "" = .ok req) :
    ((PostJSONWithAuth client endpoint gbody token d).trace.sentRequest.map
      (fun r => headerGet r.headers "Authorization")) =
        some (some ("Bearer " ++ token)) ∧
    headerGet req.headers "Authorization" = none := by
  constructor
  · rw [PostJSONWithAuth_request client endpoint gbody token d jb u hj hu,
      execUtilRequest_sentRequest]
    simp only [Option.map, Request.setHeader]
    exact congrArg some (headerGet_headerSet_self _ _ _)
  · exact newRequest_noToken_auth method endpoint2 u2 query form req hu2 hreq

/-- Witness for C9 at the empty token. -/
theorem c9_bearer_always_vs_builder_omits_witness :
    jsonMarshal (.jsonVal .jnull) = .ok "null" ∧
    newRequest "GET" "http://e" none none "" = .ok ⟨"GET", "http://e", [], ""⟩ ∧
    ((PostJSONWithAuth (fun _ => .ok ⟨200, "1"⟩) "http://e" (.jsonVal .jnull) ""
        ⟨.sAny, none⟩).trace.sentRequest.map
      (fun r => headerGet r.headers "Authorization")) = some (some ("Bearer " ++ "")) ∧
    headerGet (⟨"GET", "http://e", [], ""⟩ : Request).headers "Authorization" = none := by
  have hj : jsonMarshal (.jsonVal .jnull) = .ok "null" := by
    simp [jsonMarshal, encodeJson]
  have hr : newRequest "GET" "http://e" none none "" =
      .ok ⟨"GET", "http://e", [], ""⟩ := rfl
  have h := c9_bearer_always_vs_builder_omits (fun _ => .ok ⟨200, "1"⟩) "http://e"
    ⟨"http://e", ""⟩ (.jsonVal .jnull) "null" "" ⟨.sAny, none⟩ "GET" "http://e"
    ⟨"http://e", ""⟩ none none ⟨"GET", "http://e", [], ""⟩ hj rfl rfl hr
  exact ⟨hj, hr, h.1, h.2⟩

/-- C3 counterexample: `HTTPGet`, one of the two plain variants named by
the claim, does not discard the response body on a non-200 status — its
error carries the body text, not the status code alone. -/
theorem c3_counterexample :
    (HTTPGet (fun _ => .ok ⟨503, "overloaded"⟩) "http://e/s" ⟨.sAny, none⟩).err =
      some (.unexpectedStatus 503 (some "overloaded")) ∧
    (HTTPGet (fun _ => .ok ⟨503, "overloaded"⟩) "http://e/s" ⟨.sAny, none⟩).err ≠
      some (.unexpectedStatus 503 none) :=
  ⟨rfl, by decide⟩

/-- C3 (amended): on a non-200 response the custom-header variants, the
auth variant and also `HTTPGet` include the response body text in the
returned error; only `postForm` (through `doRequest`) discards the body
and returns an error carrying the status code alone. -/
theorem c3_error_body_capture (resp : Response) (hs : resp.statusCode ≠ 200)
    (endpoint rawUrl : String) (u1 u2 : GoURL)
    (form : Option Values) (form2 : Values) (headers : List (String × String))
    (gbody : GoVal) (jb token : String) (d : Dest)
    (hu1 : urlParse endpoint = .ok u1) (hu2 : urlParse rawUrl = .ok u2)
    (hj : jsonMarshal gbody = .ok jb) :
    (PostForm (fun _ => .ok resp) endpoint form d).err =
      some (.unexpectedStatus resp.statusCode none) ∧
    (GetWithCustomHeaders (fun _ => .ok resp) rawUrl headers d).err =
      some (.unexpectedStatus resp.statusCode (some resp.body)) ∧
    (PostFormWithHeaders (fun _ => .ok resp) rawUrl form2 headers d).err =
      some (.unexpectedStatus resp.statusCode (some resp.body)) ∧
    (PostJSONWithAuth (fun _ => .ok resp) endpoint gbody token d).err =
      some (.unexpectedStatus resp.statusCode (some resp.body)) ∧
    (HTTPGet (fun _ => .ok resp) rawUrl d).err =
      some (.unexpectedStatus resp.statusCode (some resp.body)) := by
  obtain ⟨req1, hreq1⟩ := newRequest_ok "POST" endpoint none form "" u1 hu1
  refine ⟨?_, ?_, ?_, ?_, ?_⟩
  · rw [PostForm_request _ _ _ _ req1 hreq1, doRequest_non200 _ req1 d resp rfl hs]
  · rw [GetWithCustomHeaders_request _ _ headers _ u2 hu2,
      execUtilRequest_non200 _ _ d resp rfl hs]
  · rw [PostFormWithHeaders_request _ _ form2 headers _ u2 hu2,
      execUtilRequest_non200 _ _ d resp rfl hs]
  · rw [PostJSONWithAuth_request _ _ _ token _ jb u1 hj hu1,
      execUtilRequest_non200 _ _ d resp rfl hs]
  · rw [HTTPGet_non200 _ rawUrl u2 d resp hu2 rfl hs]

/-- Witness for the amended C3 at a concrete 503 response. -/
theorem c3_error_body_capture_witness :
    (503 : Nat) ≠ 200 ∧
    urlParse "http://e/p" = .ok ⟨"http://e/p", ""⟩ ∧
    urlParse "http://e/q" = .ok ⟨"http://e/q", ""⟩ ∧
    jsonMarshal (.jsonVal .jnull) = .ok "null" ∧
    (PostForm (fun _ => .ok ⟨503, "overloaded"⟩) "http://e/p" none ⟨.sAny, none⟩).err =
      some (.unexpectedStatus 503 none) ∧
    (GetWithCustomHeaders (fun _ => .ok ⟨503, "overloaded"⟩) "http://e/q" []
        ⟨.sAny, none⟩).err =
      some (.unexpectedStatus 503 (some "overloaded")) := by
  have hj : jsonMarshal (.jsonVal .jnull) = .ok "null" := by
    simp [jsonMarshal, encodeJson]
  have h := c3_error_body_capture ⟨503, "overloaded"⟩ (by decide)
    "http://e/p" "http://e/q" ⟨"http://e/p", ""⟩ ⟨"http://e/q", ""⟩ none [] []
    (.jsonVal .jnull) "null" "tok" ⟨.sAny, none⟩ rfl rfl hj
  exact ⟨by decide, rfl, rfl, hj, h.1, h.2.1⟩

/-- C4 counterexample: `PostFormWithHeaders` with an empty caller header
map sends the percent-encoded form as the body but no `Content-Type`
header at all, contradicting the claim that every form-POST entry point
carries `Content-Type: application/x-www-form-urlencoded`. -/
theorem c4_counterexample :
    (PostFormWithHeaders (fun _ => .ok ⟨200, "1"⟩) "http://e/p" [("a", ["b"])] []
        ⟨.sAny, none⟩).trace.sentRequest =
      some ⟨"POST", "http://e/p", [], "a=b"⟩ ∧
    ((PostFormWithHeaders (fun _ => .ok ⟨200, "1"⟩) "http://e/p" [("a", ["b"])] []
        ⟨.sAny, none⟩).trace.sentRequest.map
      (fun r => headerGet r.headers "Content-Type")) = some none :=
  ⟨rfl, rfl⟩

/-- C4 (amended): `postForm` sends the percent-encoded form as the request
body with `Content-Type: application/x-www-form-urlencoded` set
automatically, while `postFormWithHeaders` sends the percent-encoded form
as the body but sets no header automatically — only the caller-supplied
headers are applied, and a caller-supplied header applied last under a
given name determines that header's value in the outgoing request
(overwriting any same-named header, which is how a caller supplies the
content type to the custom-header variant). -/
theorem c4_form_body_content_type (client : Client) (endpoint rawUrl : String)
    (u1 u2 : GoURL) (form form2 : Values) (headers : List (String × String))
    (k v : String) (d : Dest)
    (hu1 : urlParse endpoint = .ok u1) (hu2 : urlParse rawUrl = .ok u2) :
    ((PostForm client endpoint (some form) d).trace.sentRequest.map Request.body =
        some (encodeValues form) ∧
      (PostForm client endpoint (some form) d).trace.sentRequest.map
          (fun r => headerGet r.headers "Content-Type") =
        some (some "application/x-www-form-urlencoded")) ∧
    ((PostFormWithHeaders client rawUrl form2 [] d).trace.sentRequest =
        some ⟨"POST", u2.urlString, [], encodeValues form2⟩ ∧
      (PostFormWithHeaders client rawUrl form2 (headers ++ [(k, v)])
          d).trace.sentRequest.map (fun r => headerGet r.headers k) =
        some (some v)) := by
  refine ⟨⟨?_, ?_⟩, ?_, ?_⟩
  · rw [PostForm_request _ _ _ _ _ (newRequest_postForm endpoint u1 form hu1),
      doRequest_sentRequest]
    rfl
  · rw [PostForm_request _ _ _ _ _ (newRequest_postForm endpoint u1 form hu1),
      doRequest_sentRequest]
    simp only [Option.map, Request.setHeader]
    exact congrArg some (headerGet_headerSet_self _ _ _)
  · rw [PostFormWithHeaders_request _ _ form2 [] _ u2 hu2,
      execUtilRequest_sentRequest]
    rfl
  · rw [PostFormWithHeaders_request _ _ form2 (headers ++ [(k, v)]) _ u2 hu2,
      execUtilRequest_sentRequest]
    simp only [Option.map]
    exact congrArg some (applyHeaders_append_last _ headers k v)

/-- Witness for the amended C4 at concrete inputs, including a
caller-supplied content type overriding on the custom-header variant. -/
theorem c4_form_body_content_type_witness :
    urlParse "http://e/p" = .ok ⟨"http://e/p", ""⟩ ∧
    urlParse "http://e/q" = .ok ⟨"http://e/q", ""⟩ ∧
    ((PostForm (fun _ => .ok ⟨200, "1"⟩) "http://e/p" (some [("a", ["b"])])
        ⟨.sAny, none⟩).trace.sentRequest.map
      (fun r => headerGet r.headers "Content-Type")) =
      some (some "application/x-www-form-urlencoded") ∧
    ((PostFormWithHeaders (fun _ => .ok ⟨200, "1"⟩) "http://e/q" [("a", ["b"])]
        ([] ++ [("Content-Type", "text/plain")]) ⟨.sAny, none⟩).trace.sentRequest.map
      (fun r => headerGet r.headers "Content-Type")) = some (some "text/plain") := by
  have h := c4_form_body_content_type (fun _ => .ok ⟨200, "1"⟩) "http://e/p"
    "http://e/q" ⟨"http://e/p", ""⟩ ⟨"http://e/q", ""⟩ [("a", ["b"])] [("a", ["b"])]
    [] "Content-Type" "text/plain" ⟨.sAny, none⟩ rfl rfl
  exact ⟨rfl, rfl, h.1.2, h.2.2⟩

/-- C7 counterexample: with endpoint `http://e/p?a=1` and query parameter
`b=2`, the request builder produces the URL `http://e/p?b=2` — the query
string already present in the endpoint is discarded, not preserved
alongside the new parameters. -/
theorem c7_counterexample :
    newRequest "POST" "http://e/p?a=1" (some [("b", ["2"])]) none "" =
      .ok ⟨"POST", "http://e/p?b=2", [], ""⟩ ∧
    (⟨"POST", "http://e/p?b=2", [], ""⟩ : Request).url ≠ "http://e/p?a=1&b=2" :=
  ⟨rfl, by decide⟩

/-- C7 (amended): for every parseable endpoint and every non-nil set of
query parameters, the request builder REPLACES the endpoint's query
string with the encoded parameters — any query string already present in
the endpoint is discarded — and the parameters are percent-encoded with
keys in sorted order. -/
theorem c7_query_replacement_sorted (method endpoint : String) (u : GoURL)
    (q : Values) (form : Option Values) (token : String) (req : Request)
    (hu : urlParse endpoint = .ok u)
    (h : newRequest method endpoint (some q) form token = .ok req) :
    req.url = GoURL.urlString ⟨u.beforeQuery, encodeValues q⟩ ∧
    List.Sorted (fun a b => a.1 ≤ b.1) (sortValues q) := by
  refine ⟨newRequest_url method endpoint u q form token req hu h, ?_⟩
  haveI : IsTotal (String × List String) (fun a b => a.1 ≤ b.1) :=
    ⟨fun a b => le_total a.1 b.1⟩
  haveI : IsTrans (String × List String) (fun a b => a.1 ≤ b.1) :=
    ⟨fun _ _ _ hab hbc => le_trans hab hbc⟩
  exact List.sorted_insertionSort _ q

/-- Witness for the amended C7 at a concrete endpoint that already
carries a query string. -/
theorem c7_query_replacement_sorted_witness :
    urlParse "http://e/p?a=1" = .ok ⟨"http://e/p", "a=1"⟩ ∧
    newRequest "POST" "http://e/p?a=1" (some [("b", ["2"])]) none "" =
      .ok ⟨"POST", "http://e/p?b=2", [], ""⟩ ∧
    (⟨"POST", "http://e/p?b=2", [], ""⟩ : Request).url =
      GoURL.urlString ⟨"http://e/p", encodeValues [("b", ["2"])]⟩ ∧
    List.Sorted (fun a b => a.1 ≤ b.1) (sortValues [("b", ["2"])]) := by
  have h := c7_query_replacement_sorted "POST" "http://e/p?a=1" ⟨"http://e/p", "a=1"⟩
    [("b", ["2"])] none "" ⟨"POST", "http://e/p?b=2", [], ""⟩ rfl rfl
  exact ⟨rfl, rfl, h.1, h.2⟩

/-- C2 counterexample: a 200 body consisting of a complete JSON value
followed by a stray byte is not valid JSON (whole-body unmarshalling
rejects it), yet `PostForm` — a client-taking entry point whose streaming
decoder reads only the first value — returns no error instead of the
decode error the claim requires. -/
theorem c2_counterexample :
    unmarshal "\x7b\"a\":1\x7dx" = none ∧
    (PostForm (fun _ => .ok ⟨200, "\x7b\"a\":1\x7dx"⟩) "http://e/p" none
      ⟨.sAny, none⟩).err = none :=
  ⟨rfl, rfl⟩

/-- C2 (amended): on a 200 response, if the whole body is valid JSON
matching the destination's shape every entry point succeeds and writes the
decoded value into the destination; `HTTPGet` returns a decode error
exactly when the whole body is not valid JSON or the value does not match
the shape, while the four client-taking entry points return a decode error
exactly when the body does not BEGIN with a valid JSON value matching the
shape — trailing bytes after the first value are ignored by them. A
decoded non-null value is stored in the destination. -/
theorem c2_decode_success_and_failure
    (sbody : String) (endpoint rawUrl : String) (u1 u2 : GoURL)
    (form : Option Values) (form2 : Values) (headers : List (String × String))
    (gbody : GoVal) (jb token : String) (d : Dest)
    (hu1 : urlParse endpoint = .ok u1) (hu2 : urlParse rawUrl = .ok u2)
    (hj : jsonMarshal gbody = .ok jb) :
    (∀ v, unmarshal sbody = some v → matchesShape d.shape v = true →
      ((PostForm (fun _ => .ok ⟨200, sbody⟩) endpoint form d).err = none ∧
        (PostForm (fun _ => .ok ⟨200, sbody⟩) endpoint form d).dest = d.assign v) ∧
      ((GetWithCustomHeaders (fun _ => .ok ⟨200, sbody⟩) rawUrl headers d).err = none ∧
        (GetWithCustomHeaders (fun _ => .ok ⟨200, sbody⟩) rawUrl headers d).dest =
          d.assign v) ∧
      ((PostFormWithHeaders (fun _ => .ok ⟨200, sbody⟩) rawUrl form2 headers d).err =
          none ∧
        (PostFormWithHeaders (fun _ => .ok ⟨200, sbody⟩) rawUrl form2 headers d).dest =
          d.assign v) ∧
      ((PostJSONWithAuth (fun _ => .ok ⟨200, sbody⟩) endpoint gbody token d).err =
          none ∧
        (PostJSONWithAuth (fun _ => .ok ⟨200, sbody⟩) endpoint gbody token d).dest =
          d.assign v) ∧
      ((HTTPGet (fun _ => .ok ⟨200, sbody⟩) rawUrl d).err = none ∧
        (HTTPGet (fun _ => .ok ⟨200, sbody⟩) rawUrl d).dest = d.assign v)) ∧
    (decodeStream sbody = none →
      (PostForm (fun _ => .ok ⟨200, sbody⟩) endpoint form d).err =
        some .decodeFailed ∧
      (GetWithCustomHeaders (fun _ => .ok ⟨200, sbody⟩) rawUrl headers d).err =
        some .decodeFailed ∧
      (PostFormWithHeaders (fun _ => .ok ⟨200, sbody⟩) rawUrl form2 headers d).err =
        some .decodeFailed ∧
      (PostJSONWithAuth (fun _ => .ok ⟨200, sbody⟩) endpoint gbody token d).err =
        some .decodeFailed) ∧
    (unmarshal sbody = none →
      (HTTPGet (fun _ => .ok ⟨200, sbody⟩) rawUrl d).err = some .decodeFailed ∧
      (HTTPGet (fun _ => .ok ⟨200, sbody⟩) rawUrl d).dest = d) ∧
    (∀ v, decodeStream sbody = some v → matchesShape d.shape v = false →
      (PostForm (fun _ => .ok ⟨200, sbody⟩) endpoint form d).err =
        some .decodeFailed ∧
      (GetWithCustomHeaders (fun _ => .ok ⟨200, sbody⟩) rawUrl headers d).err =
        some .decodeFailed ∧
      (PostFormWithHeaders (fun _ => .ok ⟨200, sbody⟩) rawUrl form2 headers d).err =
        some .decodeFailed ∧
      (PostJSONWithAuth (fun _ => .ok ⟨200, sbody⟩) endpoint gbody token d).err =
        some .decodeFailed) ∧
    (∀ v, unmarshal sbody = some v → matchesShape d.shape v = false →
      (HTTPGet (fun _ => .ok ⟨200, sbody⟩) rawUrl d).err = some .decodeFailed) ∧
    (∀ v, v.isNull = false → (d.assign v).val = some v) := by
  obtain ⟨req1, hreq1⟩ := newRequest_ok "POST" endpoint none form "" u1 hu1
  refine ⟨?_, ?_, ?_, ?_, ?_, ?_⟩
  · intro v hun hm
    have hds := unmarshal_some_decodeStream sbody v hun
    refine ⟨?_, ?_, ?_, ?_, ?_⟩
    · rw [PostForm_request _ _ _ _ req1 hreq1,
        doRequest_decode_ok _ req1 d ⟨200, sbody⟩ v rfl rfl hds hm]
      exact ⟨rfl, rfl⟩
    · rw [GetWithCustomHeaders_request _ _ headers _ u2 hu2,
        execUtilRequest_decode_ok _ _ d ⟨200, sbody⟩ v rfl rfl hds hm]
      exact ⟨rfl, rfl⟩
    · rw [PostFormWithHeaders_request _ _ form2 headers _ u2 hu2,
        execUtilRequest_decode_ok _ _ d ⟨200, sbody⟩ v rfl rfl hds hm]
      exact ⟨rfl, rfl⟩
    · rw [PostJSONWithAuth_request _ _ _ token _ jb u1 hj hu1,
        execUtilRequest_decode_ok _ _ d ⟨200, sbody⟩ v rfl rfl hds hm]
      exact ⟨rfl, rfl⟩
    · rw [HTTPGet_decode_ok _ rawUrl u2 d ⟨200, sbody⟩ v hu2 rfl rfl hun hm]
      exact ⟨rfl, rfl⟩
  · intro hds
    refine ⟨?_, ?_, ?_, ?_⟩
    · rw [PostForm_request _ _ _ _ req1 hreq1,
        doRequest_decode_fail _ req1 d ⟨200, sbody⟩ rfl rfl hds]
    · rw [GetWithCustomHeaders_request _ _ headers _ u2 hu2,
        execUtilRequest_decode_fail _ _ d ⟨200, sbody⟩ rfl rfl hds]
    · rw [PostFormWithHeaders_request _ _ form2 headers _ u2 hu2,
        execUtilRequest_decode_fail _ _ d ⟨200, sbody⟩ rfl rfl hds]
    · rw [PostJSONWithAuth_request _ _ _ token _ jb u1 hj hu1,
        execUtilRequest_decode_fail _ _ d ⟨200, sbody⟩ rfl rfl hds]
  · intro hun
    rw [HTTPGet_decode_fail _ rawUrl u2 d ⟨200, sbody⟩ hu2 rfl rfl hun]
    exact ⟨rfl, rfl⟩
  · intro v hds hm
    refine ⟨?_, ?_, ?_, ?_⟩
    · rw [PostForm_request _ _ _ _ req1 hreq1,
        doRequest_mismatch _ req1 d ⟨200, sbody⟩ v rfl rfl hds hm]
    · rw [GetWithCustomHeaders_request _ _ headers _ u2 hu2,
        execUtilRequest_mismatch _ _ d ⟨200, sbody⟩ v rfl rfl hds hm]
    · rw [PostFormWithHeaders_request _ _ form2 headers _ u2 hu2,
        execUtilRequest_mismatch _ _ d ⟨200, sbody⟩ v rfl rfl hds hm]
    · rw [PostJSONWithAuth_request _ _ _ token _ jb u1 hj hu1,
        execUtilRequest_mismatch _ _ d ⟨200, sbody⟩ v rfl rfl hds hm]
  · intro v hun hm
    rw [HTTPGet_mismatch _ rawUrl u2 d ⟨200, sbody⟩ v hu2 rfl rfl hun hm]
  · intro v hv
    simp [Dest.assign, hv]

/-- Witness for the amended C2: a valid-JSON success, a malformed body
failing on both decoders, and a shape mismatch. -/
theorem c2_decode_success_and_failure_witness :
    unmarshal "true" = some (.jbool true) ∧
    (PostForm (fun _ => .ok ⟨200, "true"⟩) "http://e/p" none ⟨.sAny, none⟩).err =
      none ∧
    (PostForm (fun _ => .ok ⟨200, "true"⟩) "http://e/p" none ⟨.sAny, none⟩).dest =
      Dest.assign ⟨.sAny, none⟩ (.jbool true) ∧
    (HTTPGet (fun _ => .ok ⟨200, "true"⟩) "http://e/q" ⟨.sAny, none⟩).err = none ∧
    decodeStream "nope" = none ∧
    (GetWithCustomHeaders (fun _ => .ok ⟨200, "nope"⟩) "http://e/q" []
      ⟨.sAny, none⟩).err = some .decodeFailed ∧
    (HTTPGet (fun _ => .ok ⟨200, "nope"⟩) "http://e/q" ⟨.sAny, none⟩).err =
      some .decodeFailed ∧
    decodeStream "5" = some (.jnum 5) ∧
    matchesShape Shape.sStr (.jnum 5) = false ∧
    (PostFormWithHeaders (fun _ => .ok ⟨200, "5"⟩) "http://e/q" [] []
      ⟨.sStr, none⟩).err = some .decodeFailed ∧
    (HTTPGet (fun _ => .ok ⟨200, "5"⟩) "http://e/q" ⟨.sStr, none⟩).err =
      some .decodeFailed := by
  have hj : jsonMarshal (.jsonVal .jnull) = .ok "null" := by
    simp [jsonMarshal, encodeJson]
  have h1 := c2_decode_success_and_failure "true" "http://e/p" "http://e/q"
    ⟨"http://e/p", ""⟩ ⟨"http://e/q", ""⟩ none [] [] (.jsonVal .jnull) "null" "tok"
    ⟨.sAny, none⟩ rfl rfl hj
  have h2 := c2_decode_success_and_failure "nope" "http://e/p" "http://e/q"
    ⟨"http://e/p", ""⟩ ⟨"http://e/q", ""⟩ none [] [] (.jsonVal .jnull) "null" "tok"
    ⟨.sAny, none⟩ rfl rfl hj
  have h3 := c2_decode_success_and_failure "5" "http://e/p" "http://e/q"
    ⟨"http://e/p", ""⟩ ⟨"http://e/q", ""⟩ none [] [] (.jsonVal .jnull) "null" "tok"
    ⟨.sStr, none⟩ rfl rfl hj
  have hok := h1.1 (.jbool true) rfl rfl
  refine ⟨rfl, hok.1.1, hok.1.2, hok.2.2.2.2.1, rfl, ?_, ?_, rfl, rfl, ?_, ?_⟩
  · exact (h2.2.1 rfl).2.1
  · exact (h2.2.2.1 rfl).1
  · exact (h3.2.2.2.1 (.jnum 5) rfl rfl).2.2.1
  · exact h3.2.2.2.2.1 (.jnum 5) rfl rfl

/-- C10: the decode step of `HTTPGet` is not equivalent to the decode step
of the four client-taking entry points. Whenever a 200 body consists of
one valid JSON value followed by further non-whitespace bytes, the
streaming decoder reads just the first value, so the four client-taking
entry points succeed, while `HTTPGet`'s whole-body unmarshal rejects the
body and returns a decode error. -/
theorem c10_stream_vs_unmarshal_divergence
    (sbody : String) (v : Json) (rest : List Char)
    (hp : parseValue (jsonFuel sbody) sbody.data = some (v, rest))
    (hrest : skipWs rest ≠ [])
    (endpoint rawUrl : String) (u1 u2 : GoURL)
    (form : Option Values) (form2 : Values) (headers : List (String × String))
    (gbody : GoVal) (jb token : String) (d : Dest)
    (hm : matchesShape d.shape v = true)
    (hu1 : urlParse endpoint = .ok u1) (hu2 : urlParse rawUrl = .ok u2)
    (hj : jsonMarshal gbody = .ok jb) :
    decodeStream sbody = some v ∧
    unmarshal sbody = none ∧
    (PostForm (fun _ => .ok ⟨200, sbody⟩) endpoint form d).err = none ∧
    (GetWithCustomHeaders (fun _ => .ok ⟨200, sbody⟩) rawUrl headers d).err = none ∧
    (PostFormWithHeaders (fun _ => .ok ⟨200, sbody⟩) rawUrl form2 headers d).err =
      none ∧
    (PostJSONWithAuth (fun _ => .ok ⟨200, sbody⟩) endpoint gbody token d).err =
      none ∧
    (HTTPGet (fun _ => .ok ⟨200, sbody⟩) rawUrl d).err = some .decodeFailed := by
  have hds : decodeStream sbody = some v := by
    unfold decodeStream
    rw [hp]
  have hun : unmarshal sbody = none := by
    unfold unmarshal
    simp only [hp]
    rw [if_neg hrest]
  obtain ⟨req1, hreq1⟩ := newRequest_ok "POST" endpoint none form "" u1 hu1
  refine ⟨hds, hun, ?_, ?_, ?_, ?_, ?_⟩
  · rw [PostForm_request _ _ _ _ req1 hreq1,
      doRequest_decode_ok _ req1 d ⟨200, sbody⟩ v rfl rfl hds hm]
  · rw [GetWithCustomHeaders_request _ _ headers _ u2 hu2,
      execUtilRequest_decode_ok _ _ d ⟨200, sbody⟩ v rfl rfl hds hm]
  · rw [PostFormWithHeaders_request _ _ form2 headers _ u2 hu2,
      execUtilRequest_decode_ok _ _ d ⟨200, sbody⟩ v rfl rfl hds hm]
  · rw [PostJSONWithAuth_request _ _ _ token _ jb u1 hj hu1,
      execUtilRequest_decode_ok _ _ d ⟨200, sbody⟩ v rfl rfl hds hm]
  · rw [HTTPGet_decode_fail _ rawUrl u2 d ⟨200, sbody⟩ hu2 rfl rfl hun]

/-- Witness for C10 at the body consisting of a JSON object followed by a
stray byte. -/
theorem c10_stream_vs_unmarshal_divergence_witness :
    parseValue (jsonFuel "\x7b\"a\":1\x7dx") (String.data "\x7b\"a\":1\x7dx") =
      some (.jobj [("a", .jnum 1)], ['x']) ∧
    skipWs ['x'] ≠ [] ∧
    decodeStream "\x7b\"a\":1\x7dx" = some (.jobj [("a", .jnum 1)]) ∧
    unmarshal "\x7b\"a\":1\x7dx" = none ∧
    (PostForm (fun _ => .ok ⟨200, "\x7b\"a\":1\x7dx"⟩) "http://e/p" none
      ⟨.sAny, none⟩).err = none ∧
    (HTTPGet (fun _ => .ok ⟨200, "\x7b\"a\":1\x7dx"⟩) "http://e/q"
      ⟨.sAny, none⟩).err = some .decodeFailed := by
  have hj : jsonMarshal (.jsonVal .jnull) = .ok "null" := by
    simp [jsonMarshal, encodeJson]
  have hrest : skipWs ['x'] ≠ [] := by decide
  have h := c10_stream_vs_unmarshal_divergence "\x7b\"a\":1\x7dx"
    (.jobj [("a", .jnum 1)]) ['x'] rfl hrest "http://e/p" "http://e/q"
    ⟨"http://e/p", ""⟩ ⟨"http://e/q", ""⟩ none [] [] (.jsonVal .jnull) "null" "tok"
    ⟨.sAny, none⟩ rfl rfl rfl hj
  exact ⟨rfl, hrest, h.1, h.2.1, h.2.2.1, h.2.2.2.2.2.2⟩

end Util
